import Mathlib

/-!
# Verification of the MtcBot message pipeline

Shallow embedding of the MtcBot LINE-bot core (rate limiting, keyword
routing, action invocation, dispatching, AI fallback, broadcast fan-out)
together with proofs of the specification's testable properties.

Python strings are modelled as `List Char`, timestamps (Python
`time.time()` floats) as `ℤ`, and Python exceptions as `Except` values.
Per-sender mutable state (`_user_message_history[user_id]`,
`_banned_users[user_id]`) is threaded explicitly: each embedded function
takes the sender's state and returns the updated state.
-/

namespace MtcBot

/-! ## Basic string operations (Python built-ins used by the source) -/

/-- `needle` is a prefix of `hay` (Python `str.startswith`). -/
def startsWith : List Char → List Char → Bool
  | _, [] => true
  | [], _ :: _ => false
  | c :: cs, p :: ps => c == p && startsWith cs ps

/-- `needle` occurs as a contiguous substring of `hay`
(Python `needle in hay` on strings). -/
def containsSub : List Char → List Char → Bool
  | [], needle => needle.isEmpty
  | c :: cs, needle => startsWith (c :: cs) needle || containsSub cs needle

/-- Python `str.strip()`: drop whitespace from both ends. -/
def pyStrip (s : List Char) : List Char :=
  ((s.dropWhile Char.isWhitespace).reverse.dropWhile Char.isWhitespace).reverse

/-- Python `str.lower()` (per-character lowering). -/
def pyLower (s : List Char) : List Char :=
  s.map Char.toLower

/-! ## Configuration (`config` module, mirrored verbatim in
`mtc_assistant_bot.py` lines 86-124: `MESSAGES`, `RATE_LIMIT_MAX = 6`,
`RATE_LIMIT_WINDOW = 60`).  Only the non-emptiness of the fixed notice
texts is relevant to the properties proved below. -/

def RATE_LIMIT_MAX : ℕ := 6

def RATE_LIMIT_WINDOW : ℤ := 60

def MSG_IDENTITY : List Char :=
  "ผมเป็นบอทผู้ช่วยอเนกประสงค์ของห้อง MTC ม.4/2 ผมช่วยได้หลายอย่าง".toList

def MSG_AI_DISABLED : List Char :=
  "ขออภัยครับ ระบบ AI ยังไม่เปิดใช้งานในขณะนี้".toList

def MSG_AI_NO_RESPONSE : List Char :=
  "ขออภัยครับ ระบบ AI ตอบไม่ได้ในขณะนี้ ลองใหม่อีกครั้ง".toList

def MSG_AI_ERROR : List Char :=
  "ขออภัยครับ ตอนนี้ผมมีปัญหาในการเชื่อมต่อกับ AI ลองใหม่อีกครั้งนะ".toList

def MSG_RATE_LIMITED : List Char :=
  "คุณส่งข้อความเร็วจนเกินไป ลองช้าลงอีกนิดนะครับ".toList

def MSG_INVALID_MESSAGE : List Char :=
  "ขออภัยครับ ผมรับข้อความประเภทนี้ไม่ได้นะ ลองพิมพ์ข้อความ".toList

def MSG_ACTION_ERROR : List Char :=
  "ขออภัยครับ เกิดข้อผิดพลาดขณะประมวลผลคำสั่งของคุณ".toList

/-! ## Plain rate limiter (`handlers.py` lines 46-57)

```python
def is_rate_limited(user_id: str) -> bool:
    now_ts = time.time()
    with _rate_limit_lock:
        history = _user_message_history.get(user_id, [])
        recent = [t for t in history if now_ts - t < RATE_LIMIT_WINDOW]
        recent.append(now_ts)
        _user_message_history[user_id] = recent
        if len(recent) > RATE_LIMIT_MAX:
            return True
    return False
```
-/

/-- One call of `handlers.is_rate_limited` for one sender: takes the
sender's stored history and the current time, returns the boolean result
and the persisted history. -/
def is_rate_limited (maxN : ℕ) (W : ℤ) (history : List ℤ) (now : ℤ) :
    Bool × List ℤ :=
  let recent := history.filter (fun t => now - t < W)
  let recent := recent ++ [now]
  (decide (recent.length > maxN), recent)

/-- A sequence of `is_rate_limited` calls at the given times, from the
given starting history; returns the call results in order and the final
history. -/
def runRL (maxN : ℕ) (W : ℤ) (history : List ℤ) : List ℤ → List Bool × List ℤ
  | [] => ([], history)
  | t :: ts =>
    let r := is_rate_limited maxN W history t
    let rest := runRL maxN W r.2 ts
    (r.1 :: rest.1, rest.2)

/-! ## Enhanced rate limiter (`handlers_optimized.py` lines 73-147)

Per-sender shared state is the pair
(`_user_message_history[user_id]`, `_banned_users.get(user_id)`). -/

/-- Per-sender state of the enhanced rate limiter:
the stored timestamp list and the optional ban-until timestamp. -/
structure RLOptState where
  hist : List ℤ
  banUntil : Option ℤ
  deriving Repr, DecidableEq

/-- Result of one `handlers_optimized.is_rate_limited` call, one
constructor per `return` statement of the source.  The function's actual
Python return value is `toBool` of this. -/
inductive RLResult where
  /-- line 95: sender has an unexpired ban; logs the remaining seconds. -/
  | bannedActive (remaining : ℤ)
  /-- line 109: severe abuse (count > 3×max); a 300 s ban was just created. -/
  | bannedNew (penalty : ℤ)
  /-- line 115: moderate abuse (count > 2×max); extended cooldown. -/
  | cooldown
  /-- line 123: normal rate limit exceeded (count > max). -/
  | limited
  /-- line 125: allowed. -/
  | allowed
  deriving Repr, DecidableEq

/-- The boolean the Python function actually returns. -/
def RLResult.toBool : RLResult → Bool
  | .allowed => false
  | _ => true

/-- `True` exactly for the two `Banned` outcomes. -/
def RLResult.isBanned : RLResult → Bool
  | .bannedActive _ => true
  | .bannedNew _ => true
  | _ => false

/-- Lines 100-125 of `handlers_optimized.is_rate_limited`: the part after
the ban check (ban absent or just expired and deleted).  Note that the
source writes `_user_message_history[user_id] = recent` only on the two
lowest tiers; the `3×` and `2×` branches return before the append and
write-back, leaving the stored history unchanged. -/
def rl_core (maxN : ℕ) (W : ℤ) (hist : List ℤ) (now : ℤ) :
    RLResult × RLOptState :=
  let recent := hist.filter (fun t => now - t < W)
  if recent.length > maxN * 3 then
    (.bannedNew 300, ⟨hist, some (now + 300)⟩)
  else if recent.length > maxN * 2 then
    (.cooldown, ⟨hist, none⟩)
  else
    let recent := recent ++ [now]
    if recent.length > maxN then
      (.limited, ⟨recent, none⟩)
    else
      (.allowed, ⟨recent, none⟩)

/-- One call of `handlers_optimized.is_rate_limited` (lines 77-125) for
one sender. -/
def is_rate_limited_opt (maxN : ℕ) (W : ℤ) (s : RLOptState) (now : ℤ) :
    RLResult × RLOptState :=
  match s.banUntil with
  | some banUntil =>
    if now < banUntil then
      (.bannedActive (banUntil - now), s)
    else
      rl_core maxN W s.hist now
  | none => rl_core maxN W s.hist now

/-- A sequence of `is_rate_limited_opt` calls at the given times. -/
def runRLOpt (maxN : ℕ) (W : ℤ) (s : RLOptState) :
    List ℤ → List RLResult × RLOptState
  | [] => ([], s)
  | t :: ts =>
    let r := is_rate_limited_opt maxN W s t
    let rest := runRLOpt maxN W r.2 ts
    (r.1 :: rest.1, rest.2)

/-- `handlers_optimized.get_rate_limit_status` (lines 127-147); the
`"banned"` status is reported whenever a ban entry exists, with
`remaining_seconds = ban_until - now`. -/
inductive RateStatus where
  | banned (banUntil remainingSeconds : ℤ)
  | rateLimited (count : ℕ)
  | ok (count : ℕ)
  deriving Repr, DecidableEq

def get_rate_limit_status (maxN : ℕ) (W : ℤ) (s : RLOptState) (now : ℤ) :
    RateStatus :=
  match s.banUntil with
  | some b => .banned b (b - now)
  | none =>
    let recent := s.hist.filter (fun t => now - t < W)
    if recent.length > maxN then .rateLimited recent.length
    else .ok recent.length

/-! ## Keyword matching and routing
(`handlers.py` lines 63-104, 197-213; identical in `handlers_optimized.py`) -/

/-- `_keyword_matches(message_lower, keyword_lower)`:
`return keyword_lower in message_lower` — plain substring containment. -/
def _keyword_matches (message_lower keyword_lower : List Char) : Bool :=
  containsSub message_lower keyword_lower

/-- An outbound LINE message (`TextMessage` / `ImageMessage`). -/
inductive Reply where
  | text (body : List Char)
  | image (url : List Char)
  deriving Repr, DecidableEq

/-- A command handler: either takes the user message or takes no
argument (the source distinguishes the two by
`action.__code__.co_argcount > 0`); invocation may raise (`Except.error`). -/
inductive BotAction (ε : Type) where
  | withArg (f : List Char → Except ε Reply)
  | noArg (f : Unit → Except ε Reply)

/-- `call_action(action, user_message)` (`handlers.py` lines 67-77):
dispatch on the handler's arity; any raised failure is caught and turned
into the fixed `MESSAGES["ACTION_ERROR"]` text reply. -/
def call_action {ε : Type} (action : BotAction ε) (user_message : List Char) :
    Reply :=
  match action with
  | .withArg f =>
    match f user_message with
    | .ok r => r
    | .error _ => .text MSG_ACTION_ERROR
  | .noArg f =>
    match f () with
    | .ok r => r
    | .error _ => .text MSG_ACTION_ERROR

/-- `action` raises on every invocation. -/
def RaisesAlways {ε : Type} : BotAction ε → Prop
  | .withArg f => ∀ m, ∃ e, f m = .error e
  | .noArg f => ∃ e, f () = .error e

/-- One entry of the `COMMANDS` list: a keyword tuple and its handler. -/
structure CommandRule (α : Type) where
  keywords : List (List Char)
  action : α
  deriving DecidableEq

/-- Insert into a list already sorted by descending length, after every
element of length ≥ the inserted one (stability). -/
def insertByLenDesc (x : List Char) : List (List Char) → List (List Char)
  | [] => [x]
  | y :: ys =>
    if y.length ≤ x.length then x :: y :: ys
    else y :: insertByLenDesc x ys

/-- Python `sorted(keywords, key=len, reverse=True)`: stable sort by
descending string length (ties keep original order). -/
def sortKeywordsDesc (ks : List (List Char)) : List (List Char) :=
  ks.foldr insertByLenDesc []

/-- The command-matching loop of `handle_message` (`handlers.py` lines
197-213): scan rules in list order; within a rule try keywords sorted by
descending length; the first rule with any matching keyword wins and the
scan stops.  Returns the winning rule together with its matched keyword. -/
def findMatch {α : Type} (message_lower : List Char) :
    List (CommandRule α) → Option (CommandRule α × List Char)
  | [] => none
  | r :: rest =>
    match (sortKeywordsDesc r.keywords).find?
        (fun k => _keyword_matches message_lower (pyLower k)) with
    | some k => some (r, k)
    | none => findMatch message_lower rest

/-! ## Broadcast fan-out (`broadcast.py` lines 92-144)

The LINE push API is modelled as an optional per-recipient send function
(`none` = `line_api` not configured); `send u = true` means the push to
`u` succeeded, `false` means it raised and was counted as failed. -/

/-- The dict returned by `broadcast_message` (the human-readable
`"message"` summary string is not modelled). -/
structure BroadcastResult where
  success : Bool
  sent_count : ℕ
  failed_count : ℕ
  deriving Repr, DecidableEq

/-- `broadcast.broadcast_message`: early-out when the API is missing or
the recipient snapshot is empty; otherwise loop over every recipient,
incrementing `sent_count` on success and `failed_count` on failure,
never aborting. -/
def broadcast_message {σ : Type} (line_api : Option (σ → Bool))
    (user_ids : List σ) : BroadcastResult :=
  match line_api with
  | none => ⟨false, 0, 0⟩
  | some send =>
    if user_ids.isEmpty then ⟨false, 0, 0⟩
    else
      let counts := user_ids.foldl
        (fun (acc : ℕ × ℕ) u =>
          if send u then (acc.1 + 1, acc.2) else (acc.1, acc.2 + 1))
        (0, 0)
      ⟨decide (counts.1 > 0), counts.1, counts.2⟩

/-! ## AI fallback (`features.py` lines 356-390, `get_gemini_response`)

The external model call `gemini_model.generate_content(enhanced_prompt)`
followed by `_safe_parse_gemini_response` is modelled as one abstract
collaborator `generate : List Char → Except ε (List Char)`:
`Except.error` is a raise anywhere inside the `try` block, `Except.ok t`
the parsed response text (`t = []` when parsing yielded an empty
string).  The date-context prompt enhancement is absorbed into
`generate`.  Python's Unicode `\w` class used by `re.sub(r'\b[Gg]oogle\b',
…)` is approximated by ASCII alphanumerics plus underscore. -/

def isWordChar (c : Char) : Bool := c.isAlphanum || c == '_'

def boundaryBefore : Option Char → Bool
  | none => true
  | some p => !isWordChar p

def boundaryAfter : List Char → Bool
  | [] => true
  | r :: _ => !isWordChar r

/-- Scanner for `re.sub(r'\b[Gg]oogle\b', 'Gemini', text)`: `prev` is the
character just before the current position (`none` at the start). -/
def replaceGoogleAux : Option Char → List Char → List Char
  | _, [] => []
  | prev, c :: cs =>
    if (c == 'G' || c == 'g') && startsWith cs ("oogle".toList)
        && boundaryBefore prev && boundaryAfter (cs.drop 5) then
      "Gemini".toList ++ replaceGoogleAux (some 'e') (cs.drop 5)
    else
      c :: replaceGoogleAux (some c) cs
termination_by _ s => s.length
decreasing_by
  · simp only [List.length_drop, List.length_cons]; omega
  · simp

def replaceGoogle (text : List Char) : List Char :=
  replaceGoogleAux none text

/-- Python `str.replace(old, new)`: replace every leftmost
non-overlapping occurrence (for non-empty `old`). -/
def replaceAll (s old new : List Char) : List Char :=
  match s with
  | [] => []
  | c :: cs =>
    if startsWith (c :: cs) old ∧ old ≠ [] then
      new ++ replaceAll ((c :: cs).drop old.length) old new
    else
      c :: replaceAll cs old new
termination_by s.length
decreasing_by
  · rename_i h
    simp only [List.length_drop, List.length_cons]
    have : old.length ≠ 0 := fun hl => h.2 (List.length_eq_zero.mp hl)
    omega
  · simp

def LINE_SAFE_TRUNCATE : ℕ := 4800

def TRUNCATE_SUFFIX : List Char :=
  "...\n\n(ข้อความยาวเกินไป ตัดบางส่วน)".toList

def identity_queries : List (List Char) :=
  ["คุณคือใคร".toList, "เป็นใคร".toList, "who are you".toList,
   "คุณชื่ออะไร".toList, "ชื่ออะไร".toList, "ตัวตน".toList]

/-- `features.get_gemini_response(prompt)`; `gemini_model` is `true` when
the model instance is configured. -/
def get_gemini_response (ε : Type) (gemini_model : Bool)
    (generate : List Char → Except ε (List Char))
    (prompt : List Char) : List Char :=
  if identity_queries.any (fun q => containsSub (pyLower prompt) q) then
    MSG_IDENTITY
  else if !gemini_model then
    MSG_AI_DISABLED
  else
    match generate prompt with
    | .error _ => MSG_AI_ERROR
    | .ok text =>
      if text.isEmpty then
        MSG_AI_NO_RESPONSE
      else
        let text := replaceGoogle text
        let text := replaceAll text ("กูเกิล".toList) ("Gemini".toList)
        if LINE_SAFE_TRUNCATE < text.length then
          text.take LINE_SAFE_TRUNCATE ++ TRUNCATE_SUFFIX
        else text

/-! ## Dispatcher (`handlers.py` lines 151-233, `handle_message`)

The Firebase-backed homework helpers (`_handle_add_homework`,
`get_homeworks_from_db`, `clear_homework_db`) and the AI fallback are
external collaborators from the dispatcher's point of view; they are
total in the source (every failure is caught internally) and are passed
in as abstract functions / result texts.  `reply_to_line` is modelled by
collecting the messages handed to it; every call site passes a singleton
list, so the outcome's `replies` is the concatenation of those
singletons. -/

structure DispatchOutcome where
  replies : List Reply
  history : List ℤ
  deriving Repr, DecidableEq

def handle_message (ε : Type) (maxN : ℕ) (W : ℤ) (now : ℤ)
    (history : List ℤ)
    (handleAddHw : List Char → Reply)
    (getHw clearHw : List Char)
    (commands : List (CommandRule (BotAction ε)))
    (ai : List Char → List Char)
    (text : List Char) : DispatchOutcome :=
  let user_message := pyStrip text
  if user_message.isEmpty then
    ⟨[.text MSG_INVALID_MESSAGE], history⟩
  else
    let rl := is_rate_limited maxN W history now
    if rl.1 then
      ⟨[.text MSG_RATE_LIMITED], rl.2⟩
    else
      let user_message_lower := pyLower user_message
      let reply_message : Option Reply :=
        if startsWith user_message ("สั่งการบ้าน".toList) then
          some (handleAddHw user_message)
        else if (["การบ้าน".toList, "ดูการบ้าน".toList,
            "homework".toList]).contains user_message then
          some (.text getHw)
        else if (["ลบการบ้านทั้งหมด".toList, "clear hw".toList,
            "ลบงาน".toList]).contains user_message then
          some (.text clearHw)
        else none
      let reply_message : Option Reply :=
        match reply_message with
        | some r => some r
        | none =>
          match findMatch user_message_lower commands with
          | some rk => some (call_action rk.1.action user_message)
          | none => none
      let finalReply : Reply :=
        match reply_message with
        | some r => r
        | none => .text (ai user_message)
      ⟨[finalReply], rl.2⟩

/-! ## Dispatcher, optimized variant
(`handlers_optimized.py` lines 260-450, `handle_message`)

The admin broadcast commands delegate to the `broadcast` module; the
reply text each one produces (`result['message']`, the stats text, the
user count) is passed in abstractly.  `broadcast.track_user` is a
fire-and-forget side effect with no influence on the reply and is not
modelled.  The Thai literals of this file are stored double-encoded in
the source; they are modelled by their intended text (identical to the
clean literals of `handlers.py` where the two files share code). -/

/-- Ban notice of lines 292-295:
`f"⛔ คุณถูกระงับชั่วคราว…\nกรุณารออีก {remaining_seconds} วินาที"`. -/
def banNotice (remaining : ℤ) : List Char :=
  "⛔ คุณถูกระงับชั่วคราวเนื่องจากส่งข้อความมากเกินไป\nกรุณารออีก ".toList
    ++ (toString remaining).toList ++ " วินาที".toList

def USAGE_BROADCAST : List Char :=
  "⚠️ รูปแบบ: ประกาศ [ข้อความ]\nตัวอย่าง: ประกาศ พรุ่งนี้มีสอบฟิสิกส์".toList

def USAGE_URGENT : List Char :=
  "⚠️ รูปแบบ: ประกาศด่วน [ข้อความ]\nตัวอย่าง: ประกาศด่วน วันนี้เลิกเรียนเร็ว!".toList

def USAGE_REMINDER : List Char :=
  "⚠️ รูปแบบ: เตือนการบ้าน [รายละเอียด]\nตัวอย่าง: เตือนการบ้าน ฟิสิกส์ต้องส่งพรุ่งนี้!".toList

def ADMIN_HELP : List Char :=
  "👨‍💼 *คำสั่งแอดมิน*\n\n📢 *การประกาศ:* ประกาศ / ประกาศด่วน / เตือนการบ้าน\n📊 *สถิติ:* สถิติประกาศ / จำนวนผู้ใช้".toList

def HW_INSTRUCTION : List Char :=
  "📝 วิธีสั่งการบ้าน (Homework Command)\n\n👉 `สั่งการบ้าน | วิชา | รายละเอียด | วันส่ง`".toList

def userCountNotice (count : ℕ) : List Char :=
  "👥 จำนวนผู้ใช้ทั้งหมด: ".toList ++ (toString count).toList ++ " คน".toList

/-- Python `str.replace(old, "", 1).strip()` as used by the admin
commands: each use is guarded by `user_message.startswith(old)`, so the
single replacement removes the leading command word. -/
def cutCommand (user_message old : List Char) : List Char :=
  pyStrip (user_message.drop old.length)

structure OptDispatchOutcome where
  replies : List Reply
  rlState : RLOptState
  deriving Repr, DecidableEq

def handle_message_opt (ε : Type) (maxN : ℕ) (W : ℤ) (now : ℤ)
    (s : RLOptState)
    (isAdmin : Bool)
    (broadcastReply urgentReply reminderReply : List Char → List Char)
    (statsText : List Char) (userCount : ℕ)
    (handleAddHw : List Char → Reply)
    (getHw clearHw : List Char)
    (commands : List (CommandRule (BotAction ε)))
    (ai : List Char → Except ε (List Char))
    (text : List Char) : OptDispatchOutcome :=
  let user_message := pyStrip text
  if user_message.isEmpty then
    ⟨[.text MSG_INVALID_MESSAGE], s⟩
  else
    let rl := is_rate_limited_opt maxN W s now
    if rl.1.toBool then
      let notice : Reply :=
        match get_rate_limit_status maxN W rl.2 now with
        | .banned _ remaining => .text (banNotice remaining)
        | _ => .text MSG_RATE_LIMITED
      ⟨[notice], rl.2⟩
    else
      let user_message_lower := pyLower user_message
      let reply_message : Option Reply :=
        if isAdmin then
          if startsWith user_message ("ประกาศ ".toList) then
            let msg := cutCommand user_message ("ประกาศ ".toList)
            if msg.isEmpty then some (.text USAGE_BROADCAST)
            else some (.text (broadcastReply msg))
          else if startsWith user_message ("ประกาศด่วน ".toList) then
            let msg := cutCommand user_message ("ประกาศด่วน ".toList)
            if msg.isEmpty then some (.text USAGE_URGENT)
            else some (.text (urgentReply msg))
          else if startsWith user_message ("เตือนการบ้าน ".toList) then
            let msg := cutCommand user_message ("เตือนการบ้าน ".toList)
            if msg.isEmpty then some (.text USAGE_REMINDER)
            else some (.text (reminderReply msg))
          else if (["สถิติประกาศ".toList, "broadcast stats".toList,
              "stats broadcast".toList]).contains user_message then
            some (.text statsText)
          else if (["จำนวนผู้ใช้".toList, "user count".toList,
              "ผู้ใช้".toList]).contains user_message then
            some (.text (userCountNotice userCount))
          else if (["admin".toList, "คำสั่งแอดมิน".toList]).contains
              user_message then
            some (.text ADMIN_HELP)
          else none
        else none
      if reply_message.isNone
          && containsSub user_message ("วิธีสั่งการบ้าน".toList) then
        ⟨[.text HW_INSTRUCTION], rl.2⟩
      else
        let reply_message : Option Reply :=
          match reply_message with
          | some r => some r
          | none =>
            if startsWith user_message ("สั่งการบ้าน".toList) then
              some (handleAddHw user_message)
            else if (["การบ้าน".toList, "ดูการบ้าน".toList,
                "homework".toList]).contains user_message then
              some (.text getHw)
            else if (["ลบการบ้านทั้งหมด".toList, "clear hw".toList,
                "ลบงาน".toList]).contains user_message then
              some (.text clearHw)
            else none
        let reply_message : Option Reply :=
          match reply_message with
          | some r => some r
          | none =>
            match findMatch user_message_lower commands with
            | some rk => some (call_action rk.1.action user_message)
            | none => none
        let finalReply : Reply :=
          match reply_message with
          | some r => r
          | none =>
            match ai user_message with
            | .ok t => .text t
            | .error _ => .text MSG_AI_ERROR
        ⟨[finalReply], rl.2⟩

/-! ## General lemmas -/

lemma filter_recent_of_within (W t0 now : ℤ) (h : List ℤ)
    (hnow : now - t0 < W) (hall : ∀ t ∈ h, t0 ≤ t) :
    h.filter (fun t => now - t < W) = h := by
  rw [List.filter_eq_self]
  intro t ht
  have := hall t ht
  simp only [decide_eq_true_eq]
  omega

lemma runRL_allowed_aux (maxN : ℕ) (W t0 : ℤ) :
    ∀ (ts hist : List ℤ),
      (∀ t ∈ hist, t0 ≤ t ∧ t - t0 < W) →
      (∀ t ∈ ts, t0 ≤ t ∧ t - t0 < W) →
      hist.length + ts.length ≤ maxN →
      ∀ b ∈ (runRL maxN W hist ts).1, b = false := by
  intro ts
  induction ts with
  | nil => intro hist _ _ _ b hb; simp [runRL] at hb
  | cons t ts ih =>
    intro hist hhist hts hlen b hb
    have ht : t0 ≤ t ∧ t - t0 < W := hts t (by simp)
    have hfilter : hist.filter (fun s => t - s < W) = hist :=
      filter_recent_of_within W t0 t hist ht.2 (fun s hs => (hhist s hs).1)
    have hstep : is_rate_limited maxN W hist t =
        (decide (hist.length + 1 > maxN), hist ++ [t]) := by
      simp [is_rate_limited, hfilter]
    simp only [runRL, hstep, List.mem_cons] at hb
    rcases hb with hb | hb
    · subst hb
      simp only [decide_eq_false_iff_not, not_lt]
      simp only [List.length_cons] at hlen
      omega
    · refine ih (hist ++ [t]) ?_ ?_ ?_ b hb
      · intro s hs
        rcases List.mem_append.mp hs with hs | hs
        · exact hhist s hs
        · simp only [List.mem_singleton] at hs; subst hs; exact ht
      · intro s hs; exact hts s (by simp [hs])
      · have hlen1 : (hist ++ [t]).length = hist.length + 1 := by simp
        simp only [List.length_cons] at hlen
        rw [hlen1]
        omega

lemma runRLOpt_allowed_aux (maxN : ℕ) (W t0 : ℤ) :
    ∀ (ts hist : List ℤ),
      (∀ t ∈ hist, t0 ≤ t ∧ t - t0 < W) →
      (∀ t ∈ ts, t0 ≤ t ∧ t - t0 < W) →
      hist.length + ts.length ≤ maxN →
      ∀ r ∈ (runRLOpt maxN W ⟨hist, none⟩ ts).1, r = RLResult.allowed := by
  intro ts
  induction ts with
  | nil => intro hist _ _ _ r hr; simp [runRLOpt] at hr
  | cons t ts ih =>
    intro hist hhist hts hlen r hr
    have ht : t0 ≤ t ∧ t - t0 < W := hts t (by simp)
    have hfilter : hist.filter (fun s => t - s < W) = hist :=
      filter_recent_of_within W t0 t hist ht.2 (fun s hs => (hhist s hs).1)
    simp only [List.length_cons] at hlen
    have h3 : ¬ hist.length > maxN * 3 := by omega
    have h2 : ¬ hist.length > maxN * 2 := by omega
    have h1 : ¬ hist.length + 1 > maxN := by omega
    have hstep : is_rate_limited_opt maxN W ⟨hist, none⟩ t =
        (RLResult.allowed, ⟨hist ++ [t], none⟩) := by
      simp [is_rate_limited_opt, rl_core, hfilter, h3, h2, h1]
    simp only [runRLOpt, hstep, List.mem_cons] at hr
    rcases hr with hr | hr
    · exact hr
    · refine ih (hist ++ [t]) ?_ ?_ ?_ r hr
      · intro s hs
        rcases List.mem_append.mp hs with hs | hs
        · exact hhist s hs
        · simp only [List.mem_singleton] at hs; subst hs; exact ht
      · intro s hs; exact hts s (by simp [hs])
      · simp only [List.length_append, List.length_singleton]; omega

/-! ## C1 — within the limit, every call is allowed -/

/-- Claim C1: for every sender and every sequence of `N` rate-limiter calls
whose timestamps all lie inside one `window_seconds` interval
`[t0, t0 + W)`, if `N ≤ max_per_window` then every call is classified
allowed: `handlers.is_rate_limited` returns `false` each time and
`handlers_optimized.is_rate_limited` takes its `allowed` branch each
time (starting from the sender's initial empty state). -/
theorem rate_limiter_allows_within_limit (maxN : ℕ) (W t0 : ℤ)
    (ts : List ℤ)
    (hwin : ∀ t ∈ ts, t0 ≤ t ∧ t - t0 < W)
    (hN : ts.length ≤ maxN) :
    (∀ b ∈ (runRL maxN W [] ts).1, b = false) ∧
    (∀ r ∈ (runRLOpt maxN W ⟨[], none⟩ ts).1, r = RLResult.allowed) := by
  constructor
  · exact runRL_allowed_aux maxN W t0 ts [] (by simp) hwin (by simpa using hN)
  · exact runRLOpt_allowed_aux maxN W t0 ts [] (by simp) hwin (by simpa using hN)

/-- Witness for C1 at the configured limits (`RATE_LIMIT_MAX = 6`,
`RATE_LIMIT_WINDOW = 60`): three calls at times 0, 10, 59. -/
theorem rate_limiter_allows_within_limit_witness :
    (∀ b ∈ (runRL 6 60 [] [(0:ℤ), 10, 59]).1, b = false) ∧
    (∀ r ∈ (runRLOpt 6 60 ⟨[], none⟩ [(0:ℤ), 10, 59]).1,
      r = RLResult.allowed) :=
  rate_limiter_allows_within_limit 6 60 0 [0, 10, 59] (by decide) (by decide)

/-! ## Lemmas on the enhanced rate limiter's state evolution -/

lemma is_rate_limited_opt_none (maxN : ℕ) (W : ℤ) (hist : List ℤ) (now : ℤ) :
    is_rate_limited_opt maxN W ⟨hist, none⟩ now = rl_core maxN W hist now :=
  rfl

lemma is_rate_limited_opt_some (maxN : ℕ) (W : ℤ) (hist : List ℤ)
    (b now : ℤ) :
    is_rate_limited_opt maxN W ⟨hist, some b⟩ now =
      if now < b then (.bannedActive (b - now), ⟨hist, some b⟩)
      else rl_core maxN W hist now :=
  rfl

/-- `rl_core` either leaves the stored history unchanged (the `3×` and
`2×` early returns) or persists the pruned window plus the new
timestamp, and the latter happens only when the pruned count is at most
`2 × max`. -/
lemma rl_core_hist_cases (maxN : ℕ) (W : ℤ) (hist : List ℤ) (now : ℤ) :
    (rl_core maxN W hist now).2.hist = hist ∨
    ((hist.filter (fun t => now - t < W)).length ≤ maxN * 2 ∧
      (rl_core maxN W hist now).2.hist
        = hist.filter (fun t => now - t < W) ++ [now]) := by
  unfold rl_core
  by_cases h3 : (hist.filter (fun t => now - t < W)).length > maxN * 3
  · left; simp [h3]
  · by_cases h2 : (hist.filter (fun t => now - t < W)).length > maxN * 2
    · left; simp [h3, h2]
    · by_cases h1 :
          (hist.filter (fun t => now - t < W)).length + 1 > maxN
      · right
        refine ⟨by omega, ?_⟩
        simp [h3, h2, h1]
      · right
        refine ⟨by omega, ?_⟩
        simp [h3, h2, h1]

lemma rl_core_hist_bound (maxN : ℕ) (W : ℤ) (hist : List ℤ) (now : ℤ)
    (h : hist.length ≤ maxN * 2 + 1) :
    (rl_core maxN W hist now).2.hist.length ≤ maxN * 2 + 1 := by
  rcases rl_core_hist_cases maxN W hist now with h' | ⟨hle, h'⟩
  · rw [h']; exact h
  · rw [h']
    simp only [List.length_append, List.length_singleton]
    omega

lemma is_rate_limited_opt_hist_bound (maxN : ℕ) (W : ℤ) (s : RLOptState)
    (now : ℤ) (h : s.hist.length ≤ maxN * 2 + 1) :
    (is_rate_limited_opt maxN W s now).2.hist.length ≤ maxN * 2 + 1 := by
  rcases s with ⟨hist, ban⟩
  cases ban with
  | none => exact rl_core_hist_bound maxN W hist now h
  | some b =>
    rw [is_rate_limited_opt_some]
    by_cases hb : now < b
    · simpa [hb] using h
    · simpa [hb] using rl_core_hist_bound maxN W hist now h

lemma runRLOpt_hist_bound (maxN : ℕ) (W : ℤ) :
    ∀ (ts : List ℤ) (s : RLOptState), s.hist.length ≤ maxN * 2 + 1 →
      (runRLOpt maxN W s ts).2.hist.length ≤ maxN * 2 + 1 := by
  intro ts
  induction ts with
  | nil => intro s h; exact h
  | cons t ts ih =>
    intro s h
    simp only [runRLOpt]
    exact ih _ (is_rate_limited_opt_hist_bound maxN W s t h)

/-- `rl_core` never returns the `bannedActive` outcome (that one is
produced only by the ban check before it). -/
lemma rl_core_ne_bannedActive (maxN : ℕ) (W : ℤ) (hist : List ℤ)
    (now : ℤ) (r : ℤ) :
    (rl_core maxN W hist now).1 ≠ .bannedActive r := by
  unfold rl_core
  by_cases h3 : (hist.filter (fun t => now - t < W)).length > maxN * 3
  · simp [h3]
  · by_cases h2 : (hist.filter (fun t => now - t < W)).length > maxN * 2
    · simp [h3, h2]
    · by_cases h1 :
          (hist.filter (fun t => now - t < W)).length + 1 > maxN
      · simp [h3, h2, h1]
      · simp [h3, h2, h1]

/-- When the sender's stored history is within the structural bound
`2 × max + 1` and `max ≥ 1`, the severe-abuse branch cannot fire: the
call is not banned and no ban entry is created. -/
lemma rl_core_no_ban (maxN : ℕ) (W : ℤ) (hist : List ℤ) (now : ℤ)
    (hmax : 1 ≤ maxN) (h : hist.length ≤ maxN * 2 + 1) :
    (rl_core maxN W hist now).1.isBanned = false ∧
    (rl_core maxN W hist now).2.banUntil = none := by
  have hf : (hist.filter (fun t => now - t < W)).length ≤ hist.length :=
    List.length_filter_le _ _
  have h3 : ¬ (hist.filter (fun t => now - t < W)).length > maxN * 3 := by
    omega
  unfold rl_core
  by_cases h2 : (hist.filter (fun t => now - t < W)).length > maxN * 2
  · simp [h3, h2, RLResult.isBanned]
  · by_cases h1 : (hist.filter (fun t => now - t < W)).length + 1 > maxN
    · simp [h3, h2, h1, RLResult.isBanned]
    · simp [h3, h2, h1, RLResult.isBanned]

lemma runRLOpt_no_ban_aux (maxN : ℕ) (W : ℤ) (hmax : 1 ≤ maxN) :
    ∀ (ts : List ℤ) (hist : List ℤ), hist.length ≤ maxN * 2 + 1 →
      (∀ r ∈ (runRLOpt maxN W ⟨hist, none⟩ ts).1, r.isBanned = false) ∧
      (runRLOpt maxN W ⟨hist, none⟩ ts).2.banUntil = none := by
  intro ts
  induction ts with
  | nil =>
    intro hist _
    exact ⟨fun r hr => by simp [runRLOpt] at hr, rfl⟩
  | cons t ts ih =>
    intro hist h
    have hcore := rl_core_no_ban maxN W hist t hmax h
    have hbound := rl_core_hist_bound maxN W hist t h
    have hstate : (rl_core maxN W hist t).2
        = ⟨(rl_core maxN W hist t).2.hist, none⟩ := by
      rcases hs : (rl_core maxN W hist t).2 with ⟨h', b'⟩
      have := hcore.2
      rw [hs] at this
      simp only at this
      rw [this]
    have ihr := ih (rl_core maxN W hist t).2.hist hbound
    constructor
    · intro r hr
      simp only [runRLOpt, is_rate_limited_opt_none, List.mem_cons] at hr
      rcases hr with hr | hr
      · rw [hr]; exact hcore.1
      · rw [hstate] at hr
        exact ihr.1 r hr
    · simp only [runRLOpt, is_rate_limited_opt_none]
      rw [hstate]
      exact ihr.2

/-! ## C2 — the Banned tier of the enhanced limiter is unreachable

The specification says messages beyond `3 × max_per_window` within a
window trigger `Banned` with a positive remaining time.  In the source,
however, the `2×` branch returns *before* the append/write-back, so a
sender's stored history can never grow past `2 × max + 1` entries; the
pruned count therefore never exceeds `2 × max + 1 ≤ 3 × max` (for
`max ≥ 1`) and the severe-abuse branch of
`handlers_optimized.is_rate_limited` is dead code: starting from the
initial empty state, no sequence of calls ever yields a banned result or
creates a ban entry. -/

/-- Claim C2, refutation: for `max_per_window ≥ 1`, no call sequence from the
initial state ever reaches a `Banned` outcome, and no `BanState` is ever
created — contradicting the claimed escalation to `Banned` with a
positive remaining time. -/
theorem ban_tier_unreachable (maxN : ℕ) (W : ℤ) (ts : List ℤ)
    (hmax : 1 ≤ maxN) :
    (∀ r ∈ (runRLOpt maxN W ⟨[], none⟩ ts).1, r.isBanned = false) ∧
    (runRLOpt maxN W ⟨[], none⟩ ts).2.banUntil = none :=
  runRLOpt_no_ban_aux maxN W hmax ts [] (by simp)

/-- Witness for C2 at the configured limits: a burst of 30 calls at one
instant (far beyond `3 × 6 = 18`) never produces a banned outcome. -/
theorem ban_tier_unreachable_witness :
    (∀ r ∈ (runRLOpt 6 60 ⟨[], none⟩ (List.replicate 30 0)).1,
      r.isBanned = false) ∧
    (runRLOpt 6 60 ⟨[], none⟩ (List.replicate 30 0)).2.banUntil = none :=
  ban_tier_unreachable 6 60 (List.replicate 30 0) (by decide)

/-! ## C3 — an active ban rejects until its timestamp, then is cleared -/

/-- Claim C3: with an unexpired `BanState`, every call strictly before the ban
timestamp is rejected (returns `True`) with the ban's positive remaining
time, leaving the state — in particular the `ActivityWindow` — entirely
untouched, whatever its contents; and a call at or after the ban
timestamp deletes the ban entry and behaves exactly like a call on a
ban-free state (in particular it is not still reported banned). -/
theorem ban_rejects_then_clears (maxN : ℕ) (W : ℤ) (hist : List ℤ)
    (b now : ℤ) :
    (now < b →
      is_rate_limited_opt maxN W ⟨hist, some b⟩ now
        = (.bannedActive (b - now), ⟨hist, some b⟩) ∧
      (RLResult.bannedActive (b - now)).toBool = true ∧
      0 < b - now) ∧
    (b ≤ now →
      is_rate_limited_opt maxN W ⟨hist, some b⟩ now
        = is_rate_limited_opt maxN W ⟨hist, none⟩ now ∧
      ∀ r : ℤ, (is_rate_limited_opt maxN W ⟨hist, some b⟩ now).1
        ≠ .bannedActive r) := by
  constructor
  · intro hb
    refine ⟨?_, rfl, by omega⟩
    rw [is_rate_limited_opt_some, if_pos hb]
  · intro hb
    have hnb : ¬ now < b := by omega
    constructor
    · rw [is_rate_limited_opt_some, if_neg hnb, is_rate_limited_opt_none]
    · intro r
      rw [is_rate_limited_opt_some, if_neg hnb]
      exact rl_core_ne_bannedActive maxN W hist now r

/-- Witness for C3: ban until time 100.  A call at time 40 is rejected
with 60 seconds remaining and an untouched state; a call at time 100 is
evaluated exactly as with no ban. -/
theorem ban_rejects_then_clears_witness :
    (is_rate_limited_opt 6 60 ⟨[0, 1], some 100⟩ 40
        = (.bannedActive 60, ⟨[0, 1], some 100⟩) ∧
      (RLResult.bannedActive ((100:ℤ) - 40)).toBool = true ∧
      (0:ℤ) < 100 - 40) ∧
    (is_rate_limited_opt 6 60 ⟨[0, 1], some 100⟩ 100
        = is_rate_limited_opt 6 60 ⟨[0, 1], none⟩ 100) :=
  ⟨(ban_rejects_then_clears 6 60 [0, 1] 100 40).1 (by decide),
   ((ban_rejects_then_clears 6 60 [0, 1] 100 100).2 (by decide)).1⟩

/-! ## C10 — the persisted history is bounded by `2 × max + 1` -/

/-- Claim C10: the enhanced limiter appends and persists a new timestamp only
when the pruned within-window count is at most `2 × RATE_LIMIT_MAX` (the
`3×` and `2×` branches return before the write-back), so along every
call sequence from the initial state the persisted history — and hence
its within-window portion under any pruning instant — never holds more
than `2 × RATE_LIMIT_MAX + 1` timestamps. -/
theorem persisted_history_bounded (maxN : ℕ) (W : ℤ) (ts : List ℤ) :
    (∀ (s : RLOptState) (now : ℤ),
      (s.hist.filter (fun t => now - t < W)).length > maxN * 2 →
      (is_rate_limited_opt maxN W s now).2.hist = s.hist) ∧
    (runRLOpt maxN W ⟨[], none⟩ ts).2.hist.length ≤ maxN * 2 + 1 ∧
    (∀ now : ℤ,
      ((runRLOpt maxN W ⟨[], none⟩ ts).2.hist.filter
        (fun t => now - t < W)).length ≤ maxN * 2 + 1) := by
  refine ⟨?_, ?_, ?_⟩
  · intro s now hgt
    rcases s with ⟨hist, ban⟩
    cases ban with
    | some b =>
      rw [is_rate_limited_opt_some]
      by_cases hb : now < b
      · rw [if_pos hb]
      · rw [if_neg hb]
        rcases rl_core_hist_cases maxN W hist now with h' | ⟨hle, _⟩
        · exact h'
        · simp only at hgt; omega
    | none =>
      rw [is_rate_limited_opt_none]
      rcases rl_core_hist_cases maxN W hist now with h' | ⟨hle, _⟩
      · exact h'
      · simp only at hgt; omega
  · exact runRLOpt_hist_bound maxN W ts ⟨[], none⟩ (by simp)
  · intro now
    calc ((runRLOpt maxN W ⟨[], none⟩ ts).2.hist.filter
            (fun t => now - t < W)).length
        ≤ (runRLOpt maxN W ⟨[], none⟩ ts).2.hist.length :=
          List.length_filter_le _ _
      _ ≤ maxN * 2 + 1 := runRLOpt_hist_bound maxN W ts ⟨[], none⟩ (by simp)

/-- Witness for C10 at the configured limits, over a burst of 30 calls
at one instant. -/
theorem persisted_history_bounded_witness :
    (runRLOpt 6 60 ⟨[], none⟩ (List.replicate 30 0)).2.hist.length
      ≤ 6 * 2 + 1 :=
  (persisted_history_bounded 6 60 (List.replicate 30 0)).2.1

/-! ## Lemmas characterizing the string primitives -/

lemma startsWith_iff (p : List Char) :
    ∀ s, startsWith s p = true ↔ ∃ suf, s = p ++ suf := by
  induction p with
  | nil => intro s; simp [startsWith]
  | cons c cs ih =>
    intro s
    cases s with
    | nil =>
      simp [startsWith]
    | cons a as =>
      simp only [startsWith, Bool.and_eq_true, beq_iff_eq, ih,
        List.cons_append, List.cons.injEq]
      constructor
      · rintro ⟨rfl, suf, rfl⟩; exact ⟨suf, rfl, rfl⟩
      · rintro ⟨suf, rfl, rfl⟩; exact ⟨rfl, suf, rfl⟩

lemma containsSub_iff (needle : List Char) :
    ∀ hay, containsSub hay needle = true ↔
      ∃ pre suf, hay = pre ++ needle ++ suf := by
  intro hay
  induction hay with
  | nil =>
    simp only [containsSub, List.isEmpty_iff]
    constructor
    · rintro rfl; exact ⟨[], [], rfl⟩
    · rintro ⟨pre, suf, h⟩
      rcases List.append_eq_nil.mp (List.append_eq_nil.mp h.symm).1 with
        ⟨-, h2⟩
      exact h2
  | cons c cs ih =>
    simp only [containsSub, Bool.or_eq_true, startsWith_iff, ih]
    constructor
    · rintro (⟨suf, hsuf⟩ | ⟨pre, suf, rfl⟩)
      · exact ⟨[], suf, by simpa using hsuf⟩
      · exact ⟨c :: pre, suf, rfl⟩
    · rintro ⟨pre, suf, h⟩
      cases pre with
      | nil =>
        left
        exact ⟨suf, by simpa using h⟩
      | cons p ps =>
        right
        simp only [List.cons_append, List.cons.injEq] at h
        exact ⟨ps, suf, h.2⟩

/-! ## C4 — keyword matching is substring containment, not word-boundary

The specification describes `_keyword_matches` as a word-boundary match
("keyword `go` does not match inside `good`").  The source
(`handlers.py` line 65 and `handlers_optimized.py` line 155) is
`return keyword_lower in message_lower`: plain substring containment,
with no boundary test on either side. -/

/-- Claim C4, refutation at the spec's own example: the keyword `"go"`,
immediately followed by the word character `'o'` inside `"good"`,
nevertheless matches. -/
theorem keyword_boundary_counterexample :
    _keyword_matches ("good".toList) ("go".toList) = true := by decide

/-- Claim C4, amended: keyword matching against the normalized text is plain
substring containment — a keyword matches iff it occurs contiguously
anywhere in the message, regardless of adjacent word characters; in
particular `"go"` matches inside `"good"` as well as standalone `"go"`
and `"go!"`. -/
theorem keyword_matches_is_substring :
    (∀ message_lower keyword_lower : List Char,
      _keyword_matches message_lower keyword_lower = true ↔
        ∃ pre suf, message_lower = pre ++ keyword_lower ++ suf) ∧
    _keyword_matches ("good".toList) ("go".toList) = true ∧
    _keyword_matches ("go".toList) ("go".toList) = true ∧
    _keyword_matches ("go!".toList) ("go".toList) = true := by
  refine ⟨fun m k => containsSub_iff k m, ?_, ?_, ?_⟩ <;> decide

/-! ## C5 — routing is deterministic: first rule wins, longest keyword
within a rule -/

/-- Claim C5: the command loop resolves exactly one rule: rules are scanned in
registration order and the first rule whose (length-descending sorted)
keyword list contains a match wins, with the remaining rules never
consulted; concretely, with `R1 = (["a", "ab"], 1)` registered before
`R2 = (["abc"], 2)`, input `"abc"` resolves to `R1` via its longer
keyword `"ab"`, even though `R2`'s keyword `"abc"` is longer. -/
theorem router_first_rule_wins :
    (∀ (α : Type) (r : CommandRule α) (rest : List (CommandRule α))
        (msg k : List Char),
      (sortKeywordsDesc r.keywords).find?
          (fun kw => _keyword_matches msg (pyLower kw)) = some k →
      findMatch msg (r :: rest) = some (r, k)) ∧
    findMatch ("abc".toList)
        [⟨["a".toList, "ab".toList], (1 : ℕ)⟩, ⟨["abc".toList], 2⟩]
      = some (⟨["a".toList, "ab".toList], 1⟩, "ab".toList) ∧
    sortKeywordsDesc ["a".toList, "ab".toList] = ["ab".toList, "a".toList] := by
  refine ⟨?_, by decide, by decide⟩
  intro α r rest msg k hfind
  simp only [findMatch, hfind]

/-- Witness for C5: the general first-rule-wins statement applied at the
spec's concrete example. -/
theorem router_first_rule_wins_witness :
    findMatch ("abc".toList)
        [⟨["a".toList, "ab".toList], (1 : ℕ)⟩, ⟨["abc".toList], 2⟩]
      = some (⟨["a".toList, "ab".toList], 1⟩, "ab".toList) :=
  router_first_rule_wins.1 ℕ ⟨["a".toList, "ab".toList], 1⟩
    [⟨["abc".toList], 2⟩] ("abc".toList) ("ab".toList) (by decide)

/-! ## C6 — broadcast accounting -/

lemma broadcast_foldl_counts {σ : Type} (send : σ → Bool) :
    ∀ (ids : List σ) (a b : ℕ),
      ids.foldl (fun (acc : ℕ × ℕ) u =>
          if send u then (acc.1 + 1, acc.2) else (acc.1, acc.2 + 1)) (a, b)
        = (a + ids.countP (fun u => send u),
           b + ids.countP (fun u => !send u)) := by
  intro ids
  induction ids with
  | nil => intro a b; simp
  | cons u us ih =>
    intro a b
    by_cases h : send u <;>
      simp [h, ih, List.countP_cons, Prod.ext_iff] <;> omega

/-- Claim C6: for every recipient list and every pattern of per-recipient
outcomes, `broadcast_message` counts every successful recipient in
`sent_count` and every failed one in `failed_count` without aborting, so
`sent_count + failed_count` equals the number of attempted recipients;
the zero-recipient broadcast yields all-zero counts, and 2 failures out
of 5 recipients yield counts (3, 2). -/
theorem broadcast_counts_partition :
    (∀ (σ : Type) (send : σ → Bool) (user_ids : List σ),
      (broadcast_message (some send) user_ids).sent_count
          = user_ids.countP (fun u => send u) ∧
      (broadcast_message (some send) user_ids).failed_count
          = user_ids.countP (fun u => !send u) ∧
      (broadcast_message (some send) user_ids).sent_count
          + (broadcast_message (some send) user_ids).failed_count
          = user_ids.length) ∧
    broadcast_message (some fun n => decide (n % 2 = 0)) ([] : List ℕ)
      = ⟨false, 0, 0⟩ ∧
    broadcast_message (some fun n => decide (n % 2 = 0)) [0, 1, 2, 3, 4]
      = ⟨true, 3, 2⟩ := by
  refine ⟨?_, by decide, by decide⟩
  intro σ send user_ids
  cases user_ids with
  | nil => simp [broadcast_message]
  | cons u us =>
    have hcounts := broadcast_foldl_counts send (u :: us) 0 0
    have hlen : (u :: us).countP (fun v => send v)
        + (u :: us).countP (fun v => !send v) = (u :: us).length := by
      induction (u :: us) with
      | nil => simp
      | cons x xs ihx =>
        by_cases hx : send x <;> simp [List.countP_cons, hx] <;> omega
    simp only [broadcast_message, List.isEmpty_cons, if_neg,
      Bool.false_eq_true, not_false_iff, ite_false, hcounts]
    exact ⟨by simp, by simp, by simpa using hlen⟩

/-! ## C7 — a raising handler still produces exactly one error reply -/

/-- Claim C7: if the resolved rule's handler raises on invocation (in
particular a handler that raises on every call), `call_action` catches
the failure and returns the fixed non-empty action-failed reply, no
exception propagates, and the dispatcher still sends exactly one
outbound reply for the message. -/
theorem handler_failure_yields_action_error (ε : Type) (maxN : ℕ)
    (W now : ℤ) (history : List ℤ)
    (handleAddHw : List Char → Reply) (getHw clearHw : List Char)
    (commands : List (CommandRule (BotAction ε)))
    (ai : List Char → List Char) (text : List Char)
    (rk : CommandRule (BotAction ε) × List Char)
    (hne : pyStrip text ≠ [])
    (hrl : (is_rate_limited maxN W history now).1 = false)
    (hfb1 : startsWith (pyStrip text) ("สั่งการบ้าน".toList) = false)
    (hfb2 : (["การบ้าน".toList, "ดูการบ้าน".toList,
        "homework".toList]).contains (pyStrip text) = false)
    (hfb3 : (["ลบการบ้านทั้งหมด".toList, "clear hw".toList,
        "ลบงาน".toList]).contains (pyStrip text) = false)
    (hmatch : findMatch (pyLower (pyStrip text)) commands = some rk)
    (hraise : RaisesAlways rk.1.action) :
    handle_message ε maxN W now history handleAddHw getHw clearHw
        commands ai text
      = ⟨[.text MSG_ACTION_ERROR], (is_rate_limited maxN W history now).2⟩ ∧
    MSG_ACTION_ERROR ≠ [] ∧
    (∀ (a : BotAction ε) (m : List Char),
      RaisesAlways a → call_action a m = .text MSG_ACTION_ERROR) := by
  have hca : ∀ (a : BotAction ε) (m : List Char),
      RaisesAlways a → call_action a m = .text MSG_ACTION_ERROR := by
    intro a m ha
    cases a with
    | withArg f =>
      obtain ⟨e, hf⟩ := ha m
      simp [call_action, hf]
    | noArg f =>
      obtain ⟨e, hf⟩ := ha
      simp [call_action, hf]
  have hie : (pyStrip text).isEmpty = false := by
    cases h : pyStrip text with
    | nil => exact absurd h hne
    | cons a l => rfl
  have hfb1' := hfb1
  have hfb2' := hfb2
  have hfb3' := hfb3
  simp at hfb1' hfb2' hfb3'
  refine ⟨?_, by decide, hca⟩
  simp [handle_message, hie, hrl, hfb1', hfb2', hfb3', hmatch,
    hca rk.1.action (pyStrip text) hraise]

/-- Witness for C7: a single rule whose handler always raises, matched
by the message `"hello"`. -/
theorem handler_failure_yields_action_error_witness :
    handle_message Unit 6 60 0 [] (fun _ => .text []) [] []
        [⟨["hello".toList], .noArg (fun _ => .error ())⟩]
        (fun _ => []) ("hello".toList)
      = ⟨[.text MSG_ACTION_ERROR], (is_rate_limited 6 60 [] 0).2⟩ :=
  (handler_failure_yields_action_error Unit 6 60 0 []
    (fun _ => .text []) [] []
    [⟨["hello".toList], .noArg (fun _ => .error ())⟩]
    (fun _ => []) ("hello".toList)
    (⟨["hello".toList], .noArg (fun _ => .error ())⟩, "hello".toList)
    (by decide) (by decide) (by decide) (by decide) (by decide)
    rfl ⟨(), rfl⟩).1

/-! ## C8 — empty input short-circuits to the invalid-message notice -/

/-- Claim C8: for every inbound message whose text is empty or
whitespace-only after trimming, both dispatchers reply with the fixed
invalid-message notice and return with the sender's rate-limiter state
untouched and without consulting the rate limiter, the keyword router
or the AI fallback (the outcome is the same constant for every choice
of those collaborators). -/
theorem empty_message_short_circuits (ε : Type) (maxN : ℕ)
    (W now : ℤ) (history : List ℤ) (s : RLOptState)
    (handleAddHw : List Char → Reply) (getHw clearHw : List Char)
    (commands : List (CommandRule (BotAction ε)))
    (ai : List Char → List Char)
    (isAdmin : Bool)
    (broadcastReply urgentReply reminderReply : List Char → List Char)
    (statsText : List Char) (userCount : ℕ)
    (aiOpt : List Char → Except ε (List Char))
    (text : List Char)
    (hempty : pyStrip text = []) :
    handle_message ε maxN W now history handleAddHw getHw clearHw
        commands ai text
      = ⟨[.text MSG_INVALID_MESSAGE], history⟩ ∧
    handle_message_opt ε maxN W now s isAdmin broadcastReply urgentReply
        reminderReply statsText userCount handleAddHw getHw clearHw
        commands aiOpt text
      = ⟨[.text MSG_INVALID_MESSAGE], s⟩ := by
  constructor
  · simp [handle_message, hempty]
  · simp [handle_message_opt, hempty]

/-- Witness for C8: a whitespace-only inbound text. -/
theorem empty_message_short_circuits_witness :
    handle_message Unit 6 60 0 [] (fun _ => .text []) [] [] []
        (fun _ => []) ("  \t ".toList)
      = ⟨[.text MSG_INVALID_MESSAGE], []⟩ ∧
    handle_message_opt Unit 6 60 0 ⟨[], none⟩ true (fun _ => [])
        (fun _ => []) (fun _ => []) [] 0 (fun _ => .text []) [] [] []
        (fun _ => .ok []) ("  \t ".toList)
      = ⟨[.text MSG_INVALID_MESSAGE], ⟨[], none⟩⟩ :=
  empty_message_short_circuits Unit 6 60 0 [] ⟨[], none⟩
    (fun _ => .text []) [] [] [] (fun _ => []) true (fun _ => [])
    (fun _ => []) (fun _ => []) [] 0 (fun _ => .ok [])
    ("  \t ".toList) (by decide)

/-! ## C9 — the AI fallback is total and never returns empty text -/

lemma replaceGoogleAux_ne_nil (prev : Option Char) (s : List Char)
    (hs : s ≠ []) : replaceGoogleAux prev s ≠ [] := by
  cases s with
  | nil => exact absurd rfl hs
  | cons c cs =>
    unfold replaceGoogleAux
    split <;> simp

lemma replaceAll_ne_nil (old new : List Char) (hnew : new ≠ [])
    (s : List Char) (hs : s ≠ []) : replaceAll s old new ≠ [] := by
  cases s with
  | nil => exact absurd rfl hs
  | cons c cs =>
    unfold replaceAll
    split
    · simp [hnew]
    · simp

/-- Claim C9: when the identity shortcut does not fire and the model is
configured, a failure raised by the external model yields the fixed
"AI error" reply and an empty parsed response yields the fixed
"no response" reply; both notices are non-empty, and for every model
state and every collaborator outcome the fallback returns a non-empty
text — it never propagates an exception (it is a total function). -/
theorem ai_fallback_total_and_nonempty (ε : Type)
    (generate : List Char → Except ε (List Char)) (prompt : List Char)
    (hid : identity_queries.any
      (fun q => containsSub (pyLower prompt) q) = false) :
    (∀ e, generate prompt = .error e →
      get_gemini_response ε true generate prompt = MSG_AI_ERROR) ∧
    (generate prompt = .ok [] →
      get_gemini_response ε true generate prompt = MSG_AI_NO_RESPONSE) ∧
    MSG_AI_ERROR ≠ [] ∧ MSG_AI_NO_RESPONSE ≠ [] ∧
    (∀ (gemini_model : Bool) (gen : List Char → Except ε (List Char)),
      get_gemini_response ε gemini_model gen prompt ≠ []) := by
  refine ⟨?_, ?_, by decide, by decide, ?_⟩
  · intro e he
    simp [get_gemini_response, hid, he]
  · intro he
    simp [get_gemini_response, hid, he]
  · intro gemini_model gen
    unfold get_gemini_response
    split
    · decide
    · split
      · decide
      · split
        · decide
        · rename_i t _
          split
          · decide
          · rename_i hte
            have ht : t ≠ [] := by
              intro h
              rw [h] at hte
              simp at hte
            have h1 : replaceGoogle t ≠ [] :=
              replaceGoogleAux_ne_nil none t ht
            have h2 : replaceAll (replaceGoogle t) ("กูเกิล".toList)
                ("Gemini".toList) ≠ [] :=
              replaceAll_ne_nil _ _ (by decide) _ h1
            dsimp only
            split
            · simp [TRUNCATE_SUFFIX]
            · exact h2

/-- Witness for C9: a raising collaborator on the prompt `"hello"`
yields the fixed AI-error reply. -/
theorem ai_fallback_total_and_nonempty_witness :
    get_gemini_response Unit true (fun _ => .error ()) ("hello".toList)
      = MSG_AI_ERROR :=
  (ai_fallback_total_and_nonempty Unit (fun _ => .error ())
    ("hello".toList) (by decide)).1 () rfl

end MtcBot
